import Mathlib

/-!
Shallow embedding of the FreeRTOS digital synthesizer core
(src/FreeRTOS_Digital_Synth/src/main.c) and proofs about it.

Modelling conventions:
* C `long` voice fields (`v_counter`, `v_period`) are modelled as `Nat`.
  Every property below is stated in the documented operating range
  `0 ≤ counter ≤ period`, `period ≥ 1`, where the C values are
  non-negative and C truncating division coincides with `Nat` division.
* `uint16_t` arithmetic carries an explicit `% 65536` wherever the C code
  can overflow or a narrowing cast occurs.
* `fraction_of_FFF` performs `float` arithmetic in C
  (`(uint16_t)(4095.0f * (num / den))`).  It is modelled as the exact
  rational product truncated toward zero, i.e. `(0xFFF * num) / den` in
  `Nat`; at every input used by the concrete claims the `float`
  computation is exact (dyadic values well inside 24 bits of mantissa),
  and the range bounds proved below hold for the rounded computation as
  well since `num ≤ den` forces the product to stay at or below `0xFFF`.
* The FreeRTOS queues (`sampleQueue`, `messageQueue`) are modelled as
  bounded lists of capacity 100, the capacity given to `xQueueCreate` in
  `main`.  A queue send with timeout 0 (or one whose bounded wait
  expires) succeeds exactly when the queue holds fewer than 100 elements.
-/

/-- The three waveforms of `enum wave_type` in main.c. -/
inductive wave_type where
  | SQUARE
  | SAW
  | TRI
deriving DecidableEq, Repr

export wave_type (SQUARE SAW TRI)

/-- `struct voices` from main.c (one oscillator voice). -/
structure voices where
  v_enable : Bool
  v_type : wave_type
  v_counter : Nat
  v_period : Nat
deriving DecidableEq, Repr

/-- Capacity passed to `xQueueCreate` for both queues in `main`. -/
def QUEUE_CAP : Nat := 100

/-- `DAC_CMD_MASK` from main.c. -/
def DAC_CMD_MASK : Nat := 0x3000

/-- `fraction_of_FFF(long num, long den)` from main.c:
`(uint16_t)(4095.0f * ((float) num / (float) den))`, modelled as the exact
rational value truncated toward zero and narrowed to `uint16_t`. -/
def fraction_of_FFF (num den : Nat) : Nat :=
  (0xFFF * num / den) % 65536

/-- The amplitude one enabled voice adds to `sample_buffer` in one pass of
the loop body of `sample_calc` (main.c lines 141-164), starting from the
`sample_buffer = 0` reset: the three sequential `if (v_type == ...)`
branches, each `+=` performed in `uint16_t`. -/
def voice_amp (v : voices) : Nat :=
  let s : Nat := 0
  let s : Nat :=
    if v.v_type = SQUARE then
      if v.v_counter ≤ v.v_period / 2 then (s + (0xFFF >>> 2)) % 65536 else s
    else s
  let s : Nat :=
    if v.v_type = SAW then
      (s + (fraction_of_FFF v.v_counter v.v_period >>> 2)) % 65536
    else s
  let s : Nat :=
    if v.v_type = TRI then
      if v.v_counter ≤ v.v_period >>> 1 then
        (s + (fraction_of_FFF (v.v_counter <<< 1) v.v_period >>> 2)) % 65536
      else if v.v_counter > v.v_period >>> 1 then
        (s + (fraction_of_FFF ((v.v_period - v.v_counter) <<< 1) v.v_period >>> 2)) % 65536
      else s
    else s
  s

/-- The counter update at the end of the loop body of `sample_calc`
(main.c lines 166-170): advance by one while `v_counter < v_period`,
otherwise wrap to 0. -/
def voice_tick (v : voices) : voices :=
  if v.v_counter < v.v_period then { v with v_counter := v.v_counter + 1 }
  else { v with v_counter := 0 }

/-- The global state touched by `sample_calc`: the 4-slot
`active_voices` array and the `uint16_t` global `sample_buffer`. -/
structure SynthState where
  active_voices : Fin 4 → voices
  sample_buffer : Nat

/-- One iteration (index `j`) of the `for` loop in `sample_calc`
(main.c lines 136-172): reset `sample_buffer` to 0, then, if voice `j` is
enabled, accumulate its amplitude into `sample_buffer` and advance its
counter. -/
def sample_calc_iter (st : SynthState) (j : Fin 4) : SynthState :=
  let st := { st with sample_buffer := 0 }
  if (st.active_voices j).v_enable then
    { active_voices := Function.update st.active_voices j (voice_tick (st.active_voices j)),
      sample_buffer := (st.sample_buffer + voice_amp (st.active_voices j)) % 65536 }
  else st

/-- `sample_calc()` from main.c: the loop body run for `j = 0, 1, 2, 3`. -/
def sample_calc (st : SynthState) : SynthState :=
  sample_calc_iter (sample_calc_iter (sample_calc_iter (sample_calc_iter st 0) 1) 2) 3

/-- The sum of `evaluate(waveform, counter, period)` over all enabled
voices, as the spec describes `compute(voiceBank)`.  This is the
spec-side definition, to be compared with the `sample_buffer` value that
`sample_calc` actually leaves behind. -/
def spec_compute (bank : Fin 4 → voices) : Nat :=
  ∑ j : Fin 4, if (bank j).v_enable then voice_amp (bank j) else 0

/-- The 16-bit word `write_to_MCP4821` builds (main.c line 122):
`(input16 & 0xFFF) | DAC_CMD_MASK`. -/
def mcp4821_word (input16 : Nat) : Nat :=
  (input16 &&& 0xFFF) ||| DAC_CMD_MASK

/-- The two bytes `write_to_MCP4821` hands to the SPI peripheral
(main.c lines 124-125).  The `u16_to_u8` union on the little-endian
SAMD21 target makes `u8[0]` the low byte and `u8[1]` the high byte of
`u16`; the code sends `u8[1]` first, then `u8[0]`. -/
def write_to_MCP4821_bytes (input16 : Nat) : List Nat :=
  let w := mcp4821_word input16
  [(w >>> 8) &&& 0xFF, w &&& 0xFF]

/-- A queue send attempt with no wait (or whose bounded wait expires while
the queue stays full): succeeds, appending at the back, exactly when the
queue holds fewer than `QUEUE_CAP` elements. -/
def tryEnqueue (q : List Nat) (x : Nat) : Option (List Nat) :=
  if q.length < QUEUE_CAP then some (q ++ [x]) else none

/-- State touched by `vSampleCalcTask`: the synth globals, the
`full_queue_flag` global, and the contents of `sampleQueue`. -/
structure ProducerState where
  synth : SynthState
  full_queue_flag : Bool
  queue : List Nat

/-- One enqueue-granularity step of `vSampleCalcTask` (main.c lines
416-432).  If `full_queue_flag` is set the task is inside the inner
`while (full_queue_flag)` loop: it retries
`xQueueSendToBackFromISR(sampleQueue, &sample_buffer, 0)` with the
pending `sample_buffer`, clearing the flag on success, and does not call
`sample_calc`.  Otherwise it runs `sample_calc()` and attempts to
enqueue the resulting `sample_buffer`, setting `full_queue_flag` when
the send fails. -/
def producer_step (st : ProducerState) : ProducerState :=
  if st.full_queue_flag then
    match tryEnqueue st.queue st.synth.sample_buffer with
    | some q2 => { st with queue := q2, full_queue_flag := false }
    | none => st
  else
    let syn := sample_calc st.synth
    match tryEnqueue st.queue syn.sample_buffer with
    | some q2 => { st with synth := syn, queue := q2 }
    | none => { st with synth := syn, full_queue_flag := true }

/-- One run of the loop body of `vPeriodicSPITask` (main.c lines
381-390): a single `xQueueReceive(sampleQueue, ..., 0)`; on success the
received sample goes to `write_to_MCP4821`, on an empty queue nothing
happens.  Returns the remaining queue and the bytes transmitted, if
any. -/
def vPeriodicSPITask_run (q : List Nat) : List Nat × Option (List Nat) :=
  match q with
  | [] => ([], none)
  | s :: rest => (rest, some (write_to_MCP4821_bytes s))

/-- `xQueueSendToBack(messageQueue, &temp8, 50/portTICK_RATE_uS)` as seen
by the drain loop: the byte (the `uint8_t` narrowing of the `uint16_t`
read) is appended if the queue has room; if the bounded wait times out
on a full queue the byte is dropped. -/
def push_bounded (q : List Nat) (b : Nat) : List Nat :=
  if q.length < QUEUE_CAP then q ++ [b % 256] else q

/-- The drain loop of `vUARTHandlerTask` after one semaphore take
(main.c lines 366-370): `usart_read_wait` yields the listed words in
order until it reports no data, and each is pushed with
`push_bounded`. -/
def drain_loop (stream : List Nat) (q : List Nat) : List Nat :=
  stream.foldl push_bounded q

/-- Modelled from the spec: the MIDI protocol decoding inside
`vMIDIInterpreter` is left as a stub in main.c (`//do midi
interpretation here`), so the three VoiceBank mutations of spec §4.6 are
modelled from the spec's words.  `period` must be derived from `pitch`
with higher pitch giving a smaller period; the spec fixes no formula, so
a representative strictly antitone derivation on the 7-bit MIDI pitch
range 0..127 is used. -/
def periodOfPitch (pitch : Nat) : Nat := 128 - pitch

/-- Modelled from the spec: `NoteOn(voiceIndex, pitch, velocity)` →
enable the voice, derive `period` from `pitch`, reset `counter = 0`
(spec §4.6); the waveform is untouched and the velocity has no specified
effect. -/
def NoteOn (bank : Fin 4 → voices) (i : Fin 4) (pitch _velocity : Nat) :
    Fin 4 → voices :=
  Function.update bank i
    { bank i with v_enable := true, v_period := periodOfPitch pitch, v_counter := 0 }

/-- Modelled from the spec: `NoteOff(voiceIndex)` → disable the voice,
`counter` left as-is (spec §4.6). -/
def NoteOff (bank : Fin 4 → voices) (i : Fin 4) : Fin 4 → voices :=
  Function.update bank i { bank i with v_enable := false }

/-! ### Concrete states used by specific scenarios -/

/-- Voice bank with voices 0 and 1 enabled (square wave, counter 0,
period 2) and voices 2 and 3 disabled. -/
def two_square_state : SynthState :=
  { active_voices := fun i =>
      match i with
      | 0 => { v_enable := true, v_type := SQUARE, v_counter := 0, v_period := 2 }
      | 1 => { v_enable := true, v_type := SQUARE, v_counter := 0, v_period := 2 }
      | 2 => { v_enable := false, v_type := SQUARE, v_counter := 0, v_period := 2 }
      | 3 => { v_enable := false, v_type := SQUARE, v_counter := 0, v_period := 2 },
    sample_buffer := 0 }

/-- The single triangle voice of the spec's concrete scenario:
`TRI`, `period = 4`, `counter = c`. -/
def tri4 (c : Nat) : voices :=
  { v_enable := true, v_type := TRI, v_counter := c, v_period := 4 }

/-- Voice bank with only voice 0 enabled, triangle wave, period 4,
counter 0. -/
def tri4_state : SynthState :=
  { active_voices := fun i =>
      match i with
      | 0 => tri4 0
      | _ => { v_enable := false, v_type := SQUARE, v_counter := 0, v_period := 1 },
    sample_buffer := 0 }

/-- Producer state stalled on a full sample queue. -/
def stalled_state : ProducerState :=
  { synth := tri4_state, full_queue_flag := true, queue := List.replicate QUEUE_CAP 3 }

/-- Producer state stalled with pending sample while one queue slot is
free. -/
def retry_state : ProducerState :=
  { synth := tri4_state, full_queue_flag := true, queue := List.replicate 99 3 }

/-- Producer state about to compute a sample in front of a full queue. -/
def fresh_full_state : ProducerState :=
  { synth := tri4_state, full_queue_flag := false, queue := List.replicate QUEUE_CAP 3 }

/-! ### Helper lemmas -/

lemma shiftl1 (n : Nat) : n <<< 1 = 2 * n := by
  rw [Nat.shiftLeft_eq]; omega

lemma shiftr1 (n : Nat) : n >>> 1 = n / 2 := by
  rw [Nat.shiftRight_eq_div_pow]

lemma shiftr2 (n : Nat) : n >>> 2 = n / 4 := by
  rw [Nat.shiftRight_eq_div_pow]

lemma fraction_of_FFF_div_le (num den : Nat) (h : num ≤ den) (hd : 0 < den) :
    0xFFF * num / den ≤ 0xFFF := by
  calc 0xFFF * num / den ≤ 0xFFF * den / den :=
        Nat.div_le_div_right (Nat.mul_le_mul_left _ h)
    _ = 0xFFF := Nat.mul_div_left 0xFFF hd

lemma fraction_of_FFF_eq (num den : Nat) (h : num ≤ den) (hd : 0 < den) :
    fraction_of_FFF num den = 0xFFF * num / den :=
  Nat.mod_eq_of_lt (lt_of_le_of_lt (fraction_of_FFF_div_le num den h hd) (by norm_num))

lemma fraction_of_FFF_le (num den : Nat) (h : num ≤ den) (hd : 0 < den) :
    fraction_of_FFF num den ≤ 0xFFF := by
  rw [fraction_of_FFF_eq num den h hd]
  exact fraction_of_FFF_div_le num den h hd

lemma voice_amp_le (v : voices)
    (hp : 1 ≤ v.v_period) (hc : v.v_counter ≤ v.v_period) :
    voice_amp v ≤ 0x3FF := by
  obtain ⟨e, w, c, p⟩ := v
  simp only at hp hc
  cases w
  · simp [voice_amp]
    split_ifs <;> omega
  · simp [voice_amp, shiftr2]
    have hb := fraction_of_FFF_le c p hc (by omega)
    omega
  · simp [voice_amp, shiftl1, shiftr1, shiftr2]
    split_ifs with h1 h2
    · have hb := fraction_of_FFF_le (2 * c) p (by omega) (by omega)
      omega
    · have hb := fraction_of_FFF_le (2 * (p - c)) p (by omega) (by omega)
      omega
    · omega

lemma voice_tick_v_enable (v : voices) : (voice_tick v).v_enable = v.v_enable := by
  unfold voice_tick; split <;> rfl

lemma voice_tick_v_type (v : voices) : (voice_tick v).v_type = v.v_type := by
  unfold voice_tick; split <;> rfl

lemma voice_tick_v_period (v : voices) : (voice_tick v).v_period = v.v_period := by
  unfold voice_tick; split <;> rfl

lemma sample_calc_iter_voices (st : SynthState) (k j : Fin 4) :
    (sample_calc_iter st k).active_voices j =
      if j = k ∧ (st.active_voices k).v_enable then voice_tick (st.active_voices k)
      else st.active_voices j := by
  unfold sample_calc_iter
  by_cases h : (st.active_voices k).v_enable
  · by_cases hj : j = k <;> simp [h, hj, Function.update_apply]
  · simp [h]

lemma sample_calc_voices (st : SynthState) (j : Fin 4) :
    (sample_calc st).active_voices j =
      if (st.active_voices j).v_enable then voice_tick (st.active_voices j)
      else st.active_voices j := by
  fin_cases j <;>
    simp +decide [sample_calc, sample_calc_iter_voices]

lemma voice_tick_iterate_enable (k : Nat) (v : voices) :
    (voice_tick^[k] v).v_enable = v.v_enable := by
  induction k with
  | zero => rfl
  | succ k ih => rw [Function.iterate_succ_apply', voice_tick_v_enable, ih]

lemma voice_tick_iterate_period (k : Nat) (v : voices) :
    (voice_tick^[k] v).v_period = v.v_period := by
  induction k with
  | zero => rfl
  | succ k ih => rw [Function.iterate_succ_apply', voice_tick_v_period, ih]

lemma sample_calc_iterate_voices (k : Nat) (st : SynthState) (j : Fin 4)
    (h : (st.active_voices j).v_enable = true) :
    (sample_calc^[k] st).active_voices j = voice_tick^[k] (st.active_voices j) := by
  induction k with
  | zero => rfl
  | succ k ih =>
    rw [Function.iterate_succ_apply', Function.iterate_succ_apply',
      sample_calc_voices, ih, voice_tick_iterate_enable k (st.active_voices j)]
    simp [h]

lemma voice_tick_counter (v : voices) :
    (voice_tick v).v_counter = if v.v_counter < v.v_period then v.v_counter + 1 else 0 := by
  unfold voice_tick; split <;> rfl

lemma voice_tick_iterate_counter (k : Nat) (v : voices)
    (h0 : v.v_counter = 0) (hk : k ≤ v.v_period) :
    (voice_tick^[k] v).v_counter = k := by
  induction k with
  | zero => simpa using h0
  | succ k ih =>
    have hper := voice_tick_iterate_period k v
    have hcnt := ih (by omega)
    rw [Function.iterate_succ_apply', voice_tick_counter, hcnt, hper]
    split <;> omega

lemma voice_tick_iterate_wrap (v : voices) (h0 : v.v_counter = 0) :
    (voice_tick^[v.v_period + 1] v).v_counter = 0 := by
  have hper := voice_tick_iterate_period v.v_period v
  have hcnt := voice_tick_iterate_counter v.v_period v h0 (le_refl _)
  rw [Function.iterate_succ_apply', voice_tick_counter, hcnt, hper]
  simp

lemma lor_DAC (a : Nat) (h : a < 4096) : a ||| DAC_CMD_MASK = a + DAC_CMD_MASK := by
  have h2 : a < 2 ^ 12 := by omega
  have h3 := Nat.mul_add_lt_is_or h2 3
  rw [Nat.lor_comm, DAC_CMD_MASK]
  norm_num at h3
  omega

lemma and_FFF_eq_mod (s : Nat) : s &&& 0xFFF = s % 4096 := by
  have h := Nat.and_pow_two_sub_one_eq_mod s 12
  norm_num at h
  exact h

lemma and_FF_eq_mod (s : Nat) : s &&& 0xFF = s % 256 := by
  have h := Nat.and_pow_two_sub_one_eq_mod s 8
  norm_num at h
  exact h

lemma mcp4821_word_eq (s : Nat) : mcp4821_word s = s % 4096 + DAC_CMD_MASK := by
  unfold mcp4821_word
  rw [and_FFF_eq_mod]
  exact lor_DAC _ (Nat.mod_lt s (by norm_num))

lemma set_enable_false_self (v : voices) (h : v.v_enable = false) :
    { v with v_enable := false } = v := by
  obtain ⟨e, w, c, p⟩ := v
  simp only at h
  rw [h]

lemma push_bounded_room (q : List Nat) (b : Nat) (h : q.length < QUEUE_CAP) :
    push_bounded q b = q ++ [b % 256] := by
  unfold push_bounded
  rw [if_pos h]

lemma push_bounded_full (q : List Nat) (b : Nat) (h : QUEUE_CAP ≤ q.length) :
    push_bounded q b = q := by
  unfold push_bounded
  rw [if_neg (by omega)]

lemma drain_loop_no_overflow (stream : List Nat) :
    ∀ q : List Nat, q.length + stream.length ≤ QUEUE_CAP →
      drain_loop stream q = q ++ stream.map (fun b => b % 256) := by
  induction stream with
  | nil => intro q h; simp [drain_loop]
  | cons b rest ih =>
    intro q h
    simp only [List.length_cons] at h
    have hroom : q.length < QUEUE_CAP := by omega
    simp only [drain_loop, List.foldl_cons]
    rw [push_bounded_room q b hroom]
    have := ih (q ++ [b % 256]) (by simp; omega)
    simp only [drain_loop] at this
    rw [this]
    simp

/-! ### Claim theorems -/

/-- C1 (code bug): the spec says one call of `sample_calc` produces a
composite sample equal to the sum of the evaluations of all enabled
voices, but the code resets `sample_buffer` to 0 at the top of every
loop iteration, so only the last slot's contribution survives.  With
voices 0 and 1 enabled (square, counter 0, period 2) and voices 2 and 3
disabled, the code's composite sample is 0 while the sum of the enabled
voices' evaluations is 1023 + 1023 = 2046. -/
theorem C1_sample_calc_not_sum :
    (sample_calc two_square_state).sample_buffer = 0 ∧
    spec_compute two_square_state.active_voices = 2046 ∧
    (sample_calc two_square_state).sample_buffer ≠
      spec_compute two_square_state.active_voices := by
  refine ⟨?_, ?_, ?_⟩ <;> decide

/-- C2 counterexample: the claim says the triangle voice with period 4
evaluates to 127 at counter 1; the code computes
`fraction_of_FFF(2, 4) >> 2 = 2047 >> 2 = 511`. -/
theorem C2_counterexample :
    voice_amp (tri4 1) = 511 ∧ voice_amp (tri4 1) ≠ 127 := by
  refine ⟨?_, ?_⟩ <;> decide

/-- C2 (amended): for a single enabled triangle voice with period 4, the
counter sequence over successive `sample_calc` ticks is
0,1,2,3,4,0,1,... and the evaluate outputs are 0 at counter 0, 511 at
counter 1, 1023 at counter 2, 511 at counter 3, and 0 at counter 4. -/
theorem C2_triangle_scenario :
    (((sample_calc^[0] tri4_state).active_voices 0).v_counter = 0 ∧
     ((sample_calc^[1] tri4_state).active_voices 0).v_counter = 1 ∧
     ((sample_calc^[2] tri4_state).active_voices 0).v_counter = 2 ∧
     ((sample_calc^[3] tri4_state).active_voices 0).v_counter = 3 ∧
     ((sample_calc^[4] tri4_state).active_voices 0).v_counter = 4 ∧
     ((sample_calc^[5] tri4_state).active_voices 0).v_counter = 0 ∧
     ((sample_calc^[6] tri4_state).active_voices 0).v_counter = 1) ∧
    (voice_amp (tri4 0) = 0 ∧ voice_amp (tri4 1) = 511 ∧
     voice_amp (tri4 2) = 1023 ∧ voice_amp (tri4 3) = 511 ∧
     voice_amp (tri4 4) = 0) := by
  refine ⟨⟨?_, ?_, ?_, ?_, ?_, ?_, ?_⟩, ?_, ?_, ?_, ?_, ?_⟩ <;> decide

/-- C3 (modelled from the spec, since the MIDI decoding in
`vMIDIInterpreter` is an empty stub): `NoteOn` enables the voice, sets
its period from the pitch (strictly smaller period for higher pitch on
the 7-bit MIDI range), and resets its counter to 0 — also when the voice
was already enabled; `NoteOff` on a disabled voice leaves the bank
unchanged. -/
theorem C3_noteon_noteoff (bank : Fin 4 → voices) (i : Fin 4)
    (pitch velocity : Nat) :
    ((NoteOn bank i pitch velocity) i).v_enable = true
    ∧ ((NoteOn bank i pitch velocity) i).v_period = periodOfPitch pitch
    ∧ ((NoteOn bank i pitch velocity) i).v_counter = 0
    ∧ (∀ p1 p2 : Nat, p1 < p2 → p2 ≤ 127 → periodOfPitch p2 < periodOfPitch p1)
    ∧ ((bank i).v_enable = true → ((NoteOn bank i pitch velocity) i).v_counter = 0)
    ∧ ((bank i).v_enable = false → NoteOff bank i = bank) := by
  refine ⟨?_, ?_, ?_, ?_, ?_, ?_⟩
  · simp [NoteOn]
  · simp [NoteOn]
  · simp [NoteOn]
  · intro p1 p2 h1 h2; unfold periodOfPitch; omega
  · intro _; simp [NoteOn]
  · intro h
    unfold NoteOff
    rw [set_enable_false_self _ h, Function.update_eq_self]

/-- C3 witness: concrete NoteOn/NoteOff applications on the bank of
`two_square_state` (voice 0 enabled, voice 2 disabled). -/
theorem C3_witness :
    ((NoteOn two_square_state.active_voices 0 60 100) 0).v_enable = true
    ∧ ((NoteOn two_square_state.active_voices 0 60 100) 0).v_period = periodOfPitch 60
    ∧ ((NoteOn two_square_state.active_voices 0 60 100) 0).v_counter = 0
    ∧ periodOfPitch 61 < periodOfPitch 60
    ∧ NoteOff two_square_state.active_voices 2 = two_square_state.active_voices :=
  ⟨(C3_noteon_noteoff two_square_state.active_voices 0 60 100).1,
   (C3_noteon_noteoff two_square_state.active_voices 0 60 100).2.1,
   (C3_noteon_noteoff two_square_state.active_voices 0 60 100).2.2.2.2.1 (by decide),
   (C3_noteon_noteoff two_square_state.active_voices 0 60 100).2.2.2.1 60 61
     (by decide) (by decide),
   (C3_noteon_noteoff two_square_state.active_voices 2 60 100).2.2.2.2.2 (by decide)⟩

/-- C4: for an enabled voice with period P ≥ 1 and counter in [0, P],
one `sample_calc` tick preserves 0 ≤ counter ≤ P, advances the counter
by 1 while it is below P, wraps it to 0 on the tick after it equals P,
and a voice started at counter 0 shows counter k after k ≤ P ticks and
is back at 0 after exactly P + 1 ticks. -/
theorem C4_counter_invariant (st : SynthState) (j : Fin 4)
    (he : (st.active_voices j).v_enable = true)
    (hp : 1 ≤ (st.active_voices j).v_period)
    (hc : (st.active_voices j).v_counter ≤ (st.active_voices j).v_period) :
    (((sample_calc st).active_voices j).v_counter ≤
        ((sample_calc st).active_voices j).v_period)
    ∧ ((st.active_voices j).v_counter < (st.active_voices j).v_period →
        ((sample_calc st).active_voices j).v_counter =
          (st.active_voices j).v_counter + 1)
    ∧ ((st.active_voices j).v_counter = (st.active_voices j).v_period →
        ((sample_calc st).active_voices j).v_counter = 0)
    ∧ ((st.active_voices j).v_counter = 0 →
        (∀ k : Nat, k ≤ (st.active_voices j).v_period →
          ((sample_calc^[k] st).active_voices j).v_counter = k)
        ∧ ((sample_calc^[(st.active_voices j).v_period + 1] st).active_voices j).v_counter
            = 0) := by
  have hv := sample_calc_voices st j
  rw [he, if_pos rfl] at hv
  refine ⟨?_, ?_, ?_, ?_⟩
  · rw [hv, voice_tick_counter, voice_tick_v_period]
    split <;> omega
  · intro h
    rw [hv, voice_tick_counter, if_pos h]
  · intro h
    rw [hv, voice_tick_counter, if_neg (by omega)]
  · intro h0
    refine ⟨?_, ?_⟩
    · intro k hk
      rw [sample_calc_iterate_voices k st j he,
        voice_tick_iterate_counter k _ h0 hk]
    · rw [sample_calc_iterate_voices _ st j he,
        voice_tick_iterate_wrap _ h0]

/-- C4 witness: the single triangle voice with period 4 of `tri4_state`
satisfies the invariant after one tick and is back at counter 0 after
5 ticks. -/
theorem C4_witness :
    (((sample_calc tri4_state).active_voices 0).v_counter ≤
        ((sample_calc tri4_state).active_voices 0).v_period)
    ∧ ((sample_calc^[5] tri4_state).active_voices 0).v_counter = 0 :=
  ⟨(C4_counter_invariant tri4_state 0 (by decide) (by decide) (by decide)).1,
   ((C4_counter_invariant tri4_state 0 (by decide) (by decide) (by decide)).2.2.2
     (by decide)).2⟩

/-- C5: for every waveform, every period ≥ 1, and every counter in
[0, period], the single-voice amplitude computed by the waveform
branches of `sample_calc` lies in [0, 0x3FF]. -/
theorem C5_amplitude_range (e : Bool) (w : wave_type) (counter period : Nat)
    (hp : 1 ≤ period) (hc : counter ≤ period) :
    voice_amp { v_enable := e, v_type := w, v_counter := counter, v_period := period }
      ≤ 0x3FF :=
  voice_amp_le _ hp hc

/-- C5 witness: the sawtooth voice at counter 3 of period 4. -/
theorem C5_witness :
    voice_amp { v_enable := true, v_type := SAW, v_counter := 3, v_period := 4 }
      ≤ 0x3FF :=
  C5_amplitude_range true SAW 3 4 (by decide) (by decide)

/-- C6: when `full_queue_flag` is set, a step of `vSampleCalcTask` with
the queue still full changes nothing (no voice counter advances and the
pending `sample_buffer` is kept); once a slot frees it enqueues exactly
the pending `sample_buffer` value and clears the flag; and a fresh
sample whose enqueue fails is never dropped: it stays in
`sample_buffer` and the flag is raised. -/
theorem C6_stall_and_retry (st : ProducerState) :
    (st.full_queue_flag = true → QUEUE_CAP ≤ st.queue.length →
      producer_step st = st)
    ∧ (st.full_queue_flag = true → st.queue.length < QUEUE_CAP →
      producer_step st =
        { st with queue := st.queue ++ [st.synth.sample_buffer],
                  full_queue_flag := false })
    ∧ (st.full_queue_flag = false → QUEUE_CAP ≤ st.queue.length →
      producer_step st =
        { st with synth := sample_calc st.synth, full_queue_flag := true }) := by
  refine ⟨?_, ?_, ?_⟩ <;> intro h1 h2
  · simp [producer_step, tryEnqueue, h1,
      if_neg (by omega : ¬ st.queue.length < QUEUE_CAP)]
  · simp [producer_step, tryEnqueue, h1, if_pos h2]
  · simp [producer_step, tryEnqueue, h1,
      if_neg (by omega : ¬ st.queue.length < QUEUE_CAP)]

/-- C6 witness: a stalled producer in front of a full queue is unchanged
by a step, and with one slot free it enqueues the pending sample and
clears the flag. -/
theorem C6_witness :
    producer_step stalled_state = stalled_state
    ∧ producer_step retry_state =
        { retry_state with
            queue := retry_state.queue ++ [retry_state.synth.sample_buffer],
            full_queue_flag := false } :=
  ⟨(C6_stall_and_retry stalled_state).1 rfl (by decide),
   (C6_stall_and_retry retry_state).2.1 rfl (by decide)⟩

/-- C7: each run of the output task performs exactly one non-blocking
dequeue: on an empty queue nothing is transmitted and the queue (and
everything else) is unchanged, with no fallback sample substituted;
otherwise exactly the head sample is removed and transmitted through
`write_to_MCP4821`. -/
theorem C7_output_task (q : List Nat) :
    (q = [] → vPeriodicSPITask_run q = (q, none))
    ∧ (∀ (s : Nat) (rest : List Nat), q = s :: rest →
        vPeriodicSPITask_run q = (rest, some (write_to_MCP4821_bytes s))) := by
  refine ⟨?_, ?_⟩
  · intro h; subst h; rfl
  · intro s rest h; subst h; rfl

/-- C7 witness: a run on the empty queue and a run on the queue
[9, 8]. -/
theorem C7_witness :
    vPeriodicSPITask_run [] = ([], none)
    ∧ vPeriodicSPITask_run [9, 8] = ([8], some (write_to_MCP4821_bytes 9)) :=
  ⟨(C7_output_task []).1 rfl, (C7_output_task [9, 8]).2 9 [8] rfl⟩

/-- C8: after a wake of the drain task, when the command queue never
fills, every available word is narrowed to a byte and enqueued in
arrival order; when the queue is full at the moment a push's wait
expires, that byte is dropped silently and the loop simply continues
with the remaining bytes. -/
theorem C8_drain (stream q : List Nat) :
    (q.length + stream.length ≤ QUEUE_CAP →
      drain_loop stream q = q ++ stream.map (fun b => b % 256))
    ∧ (∀ (b : Nat) (rest : List Nat), QUEUE_CAP ≤ q.length →
        drain_loop (b :: rest) q = drain_loop rest q) := by
  refine ⟨drain_loop_no_overflow stream q, ?_⟩
  intro b rest h
  simp only [drain_loop, List.foldl_cons]
  rw [push_bounded_full q b h]

/-- C8 witness: draining the two available words 300 and 2 into an empty
queue enqueues the bytes 44 and 2 in order; with the queue already full,
the head byte is dropped and draining continues with the rest. -/
theorem C8_witness :
    drain_loop [300, 2] [] = [] ++ [300, 2].map (fun b => b % 256)
    ∧ drain_loop [7] (List.replicate QUEUE_CAP 0) =
        drain_loop [] (List.replicate QUEUE_CAP 0) :=
  ⟨(C8_drain [300, 2] []).1 (by decide),
   (C8_drain [7] (List.replicate QUEUE_CAP 0)).2 7 [] (by simp)⟩

/-- C9: for every 16-bit sample `s`, the transmitted word is
`(s & 0xFFF) | 0x3000 = s % 4096 + 0x3000`, and it is serialized
most-significant byte first: the two SPI bytes are the word's upper and
lower 8 bits, recombining as `hi * 256 + lo`. -/
theorem C9_dac_framing (s : Nat) (hs : s < 65536) :
    mcp4821_word s = s % 4096 + DAC_CMD_MASK
    ∧ write_to_MCP4821_bytes s = [mcp4821_word s / 256, mcp4821_word s % 256]
    ∧ (mcp4821_word s / 256) * 256 + mcp4821_word s % 256 = mcp4821_word s := by
  have hw := mcp4821_word_eq s
  have hlt : mcp4821_word s < 16384 := by
    rw [hw, DAC_CMD_MASK]
    have := Nat.mod_lt s (show 0 < 4096 by norm_num)
    omega
  refine ⟨hw, ?_, ?_⟩
  · simp only [write_to_MCP4821_bytes]
    rw [Nat.shiftRight_eq_div_pow, and_FF_eq_mod, and_FF_eq_mod]
    norm_num
    omega
  · omega

/-- C9 witness: the sample 0xABC is framed as the word 0x3ABC and sent
as the bytes 0x3A then 0xBC. -/
theorem C9_witness :
    mcp4821_word 0xABC = 0xABC % 4096 + DAC_CMD_MASK
    ∧ write_to_MCP4821_bytes 0xABC =
        [mcp4821_word 0xABC / 256, mcp4821_word 0xABC % 256] :=
  ⟨(C9_dac_framing 0xABC (by decide)).1, (C9_dac_framing 0xABC (by decide)).2.1⟩

/-- C10: one call of `sample_calc` changes, for every voice slot, only
the `v_counter` field and only when that slot is enabled: `v_enable`,
`v_type` and `v_period` are always unchanged, a disabled voice is
entirely unchanged, and an enabled voice changes exactly by
`voice_tick`, which touches only `v_counter`. -/
theorem C10_frame_effect (st : SynthState) (j : Fin 4) :
    ((sample_calc st).active_voices j).v_enable = (st.active_voices j).v_enable
    ∧ ((sample_calc st).active_voices j).v_type = (st.active_voices j).v_type
    ∧ ((sample_calc st).active_voices j).v_period = (st.active_voices j).v_period
    ∧ ((st.active_voices j).v_enable = false →
        (sample_calc st).active_voices j = st.active_voices j)
    ∧ ((st.active_voices j).v_enable = true →
        (sample_calc st).active_voices j = voice_tick (st.active_voices j)) := by
  have hv := sample_calc_voices st j
  by_cases h : (st.active_voices j).v_enable
  · rw [h, if_pos rfl] at hv
    refine ⟨?_, ?_, ?_, ?_, ?_⟩
    · rw [hv, voice_tick_v_enable]
    · rw [hv, voice_tick_v_type]
    · rw [hv, voice_tick_v_period]
    · intro hfalse; rw [h] at hfalse; cases hfalse
    · intro _; exact hv
  · rw [if_neg (by simp [h])] at hv
    refine ⟨by rw [hv], by rw [hv], by rw [hv], fun _ => hv, ?_⟩
    intro htrue; rw [htrue] at h; cases h rfl

/-- C10 witness: in `two_square_state`, the disabled voice 2 is
unchanged by `sample_calc` and the enabled voice 0 keeps its `v_enable`,
`v_type` and `v_period`. -/
theorem C10_witness :
    (sample_calc two_square_state).active_voices 2 =
      two_square_state.active_voices 2
    ∧ ((sample_calc two_square_state).active_voices 0).v_enable =
        (two_square_state.active_voices 0).v_enable
    ∧ ((sample_calc two_square_state).active_voices 0).v_period =
        (two_square_state.active_voices 0).v_period :=
  ⟨(C10_frame_effect two_square_state 2).2.2.2.1 (by decide),
   (C10_frame_effect two_square_state 0).1,
   (C10_frame_effect two_square_state 0).2.2.1⟩
